import Mathlib

/-!
Shallow embedding of the connection multiplexer in connection.go
(package kafka): a correlation-ID source, a pending-request table
mapping correlation IDs to one-shot response channels, a stream-reader
loop routing decoded frames to waiters, and the per-RPC exchange logic.

Concurrency is embedded sequentially: the shared mutable state of the
connection is an explicit record threaded through every step, the
mutex-guarded critical sections of the Go code become atomic Lean
functions, and the byte stream is an explicit list of read events.
-/

set_option autoImplicit false

namespace Kafka

/-- Opaque response payload bytes (the Go code treats them as an opaque
byte slice handed to a decoder). -/
abbrev Bytes := List Nat

/-- Error values (Go `error`); `errClosed` is the package-level ErrClosed,
`ioErr` stands for an arbitrary transport error, `correlationConflict`
is the fmt.Errorf produced by respWaiter, and `waitForResponse` is the
fmt.Errorf wrapper the RPC methods put around a respWaiter failure. -/
inductive Err where
  | errClosed
  | ioErr (n : Nat)
  | correlationConflict (id : Int)
  | waitForResponse (e : Err)
deriving DecidableEq, Repr

/-- State of one unbuffered response channel (chan of bytes): `waiting`
while the caller blocks on it, `delivered b` after the reader sent the
payload and closed it, `closedEmpty` after it was closed without a send
(the shutdown drain). -/
inductive ChanState where
  | waiting
  | delivered (b : Bytes)
  | closedEmpty
deriving DecidableEq, Repr

/-- Pending-request table: the `respc` map from correlation ID to its
response channel, embedded as an association list with unique keys. -/
abbrev Table := List (Int × ChanState)

/-- Map lookup (respc[correlationID]). -/
def tblLookup : Table → Int → Option ChanState
  | [], _ => none
  | (k, v) :: rest, t => if k = t then some v else tblLookup rest t

/-- Map deletion (delete(respc, correlationID)); deleting an absent key
is a no-op, as for a Go map. -/
def tblErase : Table → Int → Table
  | [], _ => []
  | (k, v) :: rest, t =>
      if k = t then tblErase rest t else (k, v) :: tblErase rest t

/-- The mutable state of one `connection` value: the pending table, the
recorded terminal error `stopErr`, the running correlation counter of
nextIDLoop, whether the nextID channel has been closed (the source shut
down), and whether the underlying stream was closed. -/
structure Connection where
  respc : Table
  stopErr : Option Err
  nextId : Int
  srcClosed : Bool
  rwClosed : Bool
deriving DecidableEq, Repr

/-- math.MaxInt32. -/
def maxInt32 : Int := 2147483647

/-- One step of nextIDLoop after handing out id: id++, and reset to 1
when the incremented value reaches math.MaxInt32. -/
def nextIDStep (id : Int) : Int :=
  if id + 1 = maxInt32 then 1 else id + 1

/-- The token handed to the n-th caller (0-indexed) of the correlation-ID
source: nextIDLoop starts its counter at 1 and advances by nextIDStep
after each handout. -/
def tokenAt : Nat → Int
  | 0 => 1
  | n + 1 => nextIDStep (tokenAt n)

/-- Receiving from c.nextID: gives the current counter value and advances
it, unless the source has been shut down, in which case the receive
reports the channel closed. -/
def nextID (c : Connection) : Option Int × Connection :=
  if c.srcClosed then (none, c)
  else (some c.nextId, { c with nextId := nextIDStep c.nextId })

/-- respWaiter: under the mutex, fail with a correlation-conflict error
if an entry for the correlation ID already exists, otherwise make a new
channel, store it in respc and hand it back. The new channel is
identified with its table entry. -/
def respWaiter (c : Connection) (correlationID : Int) :
    Connection × Except Err Unit :=
  match tblLookup c.respc correlationID with
  | some _ => (c, Except.error (Err.correlationConflict correlationID))
  | none =>
      ({ c with respc := (correlationID, ChanState.waiting) :: c.respc },
       Except.ok ())

/-- Outcome of one iteration of the reader loop: a frame routed to the
channel registered for its correlation ID (the channel state handed to
the waiter), an orphan frame logged and dropped, or the shutdown on a
read error. -/
inductive Outcome where
  | routed (id : Int) (ch : ChanState)
  | orphan (id : Int)
  | shutdown (e : Err)
deriving DecidableEq, Repr

/-- The routing step of readRespLoop for one decoded frame: under the
mutex look up and delete the entry for the correlation ID; if it was
present, send the payload on its channel and close it; otherwise log the
unknown response and drop the payload. -/
def deliver (tbl : Table) (correlationID : Int) (b : Bytes) :
    Table × Outcome :=
  match tblLookup tbl correlationID with
  | some _ =>
      (tblErase tbl correlationID,
       Outcome.routed correlationID (ChanState.delivered b))
  | none => (tblErase tbl correlationID, Outcome.orphan correlationID)

/-- closeConnection: under the mutex, if a terminal error is already
recorded return it unchanged with no side effect; otherwise record the
given error, signal and close the stop channel (which makes nextIDLoop
close the nextID channel and exit) and close the underlying stream,
returning whatever the stream close returned (`rwCloseRes`, the
environment's answer to c.rw.Close()). -/
def closeConnection (c : Connection) (e : Err) (rwCloseRes : Option Err) :
    Connection × Option Err :=
  match c.stopErr with
  | some prev => (c, some prev)
  | none =>
      ({ c with stopErr := some e, srcClosed := true, rwClosed := true },
       rwCloseRes)

/-- Close: closeConnection with the package-level ErrClosed reason. -/
def Close (c : Connection) (rwCloseRes : Option Err) :
    Connection × Option Err :=
  closeConnection c Err.errClosed rwCloseRes

/-- One event produced by proto.ReadResp on the stream: a decoded frame
(correlation ID and payload bytes) or a read/parse failure. -/
inductive ReadEvent where
  | frame (id : Int) (b : Bytes)
  | fail (e : Err)
deriving DecidableEq, Repr

/-- readRespLoop over an explicit list of read events: each frame is
routed with deliver; the first read failure calls closeConnection with
that error and exits the loop for good, at which point the deferred
block closes every channel still registered in respc. Events after the
failure are never consumed. An exhausted event list models a reader
still blocked in proto.ReadResp. -/
def readRespLoop (c : Connection) (evs : List ReadEvent)
    (rwCloseRes : Option Err) : Connection × List Outcome :=
  match evs with
  | [] => (c, [])
  | ReadEvent.frame id b :: rest =>
      let step := deliver c.respc id b
      let res := readRespLoop { c with respc := step.1 } rest rwCloseRes
      (res.1, step.2 :: res.2)
  | ReadEvent.fail e :: _ =>
      let c1 := (closeConnection c e rwCloseRes).1
      ({ c1 with
          respc := c1.respc.map (fun p => (p.1, ChanState.closedEmpty)) },
       [Outcome.shutdown e])

/-- What a caller blocked on b, ok := <-respc observes, given the
terminal error it would read from c.stopErr on a closed channel:
a received payload when the channel got a send before close, the
stopErr when the channel was closed empty, and still blocked while the
channel is untouched. -/
inductive WaiterView where
  | blocked
  | payload (b : Bytes)
  | failed (e : Option Err)
deriving DecidableEq, Repr

/-- awaitChan: resolve a channel state into the blocked caller's view. -/
def awaitChan (stopErr : Option Err) : ChanState → WaiterView
  | ChanState.waiting => WaiterView.blocked
  | ChanState.delivered b => WaiterView.payload b
  | ChanState.closedEmpty => WaiterView.failed stopErr

/-- Channel states routed to waiters for a given correlation ID over a
run of the reader loop, in order. -/
def routedFor (outs : List Outcome) (t : Int) : List ChanState :=
  outs.filterMap fun o =>
    match o with
    | Outcome.routed i ch => if i = t then some ch else none
    | _ => none

/-- Result of the non-blocking prefix of an RPC method, up to the point
where it either fails, returns, or blocks on its response channel. -/
inductive RpcStatus where
  | closedFail (e : Option Err)
  | waitFail (e : Err)
  | writeFail (e : Err)
  | fireForget (writeErr : Option Err)
  | awaitingResp (token : Int)
deriving DecidableEq, Repr

/-- An RPC status that leaves the caller blocked on a response channel. -/
def blocks : RpcStatus → Bool
  | RpcStatus.awaitingResp _ => true
  | _ => false

/-- The exchange protocol shared verbatim by Metadata, Fetch, Offset,
ConsumerMetadata, OffsetCommit and OffsetFetch (they differ only in the
encoder used for the write and the decoder applied to the received
payload): receive a correlation ID from c.nextID, failing with c.stopErr
when the channel is closed; register a waiter, wrapping a conflict in
the wait-for-response error; write the request, failing the call on a
write error (`writeRes` is the environment's answer to req.WriteTo);
otherwise block on the response channel. -/
def exchangeStep (c : Connection) (writeRes : Option Err) :
    Connection × RpcStatus :=
  match nextID c with
  | (none, c1) => (c1, RpcStatus.closedFail c1.stopErr)
  | (some id, c1) =>
      match respWaiter c1 id with
      | (c2, Except.error e) =>
          (c2, RpcStatus.waitFail (Err.waitForResponse e))
      | (c2, Except.ok _) =>
          match writeRes with
          | some e => (c2, RpcStatus.writeFail e)
          | none => (c2, RpcStatus.awaitingResp id)

/-- Modelled from the spec: proto.RequiredAcksNone, the required-acks
value of a produce request whose caller opted out of acknowledgement
(the constant lives in the proto package, outside this file's source);
only equality of req.RequiredAcks with it matters here. -/
def RequiredAcksNone : Int := 0

/-- Produce: like the shared exchange, but when req.RequiredAcks is
RequiredAcksNone the request is only written and the call returns at
once with a nil response and the write result, registering nothing. -/
def Produce (c : Connection) (requiredAcks : Int) (writeRes : Option Err) :
    Connection × RpcStatus :=
  match nextID c with
  | (none, c1) => (c1, RpcStatus.closedFail c1.stopErr)
  | (some id, c1) =>
      if requiredAcks = RequiredAcksNone then
        (c1, RpcStatus.fireForget writeRes)
      else
        match respWaiter c1 id with
        | (c2, Except.error e) =>
            (c2, RpcStatus.waitFail (Err.waitForResponse e))
        | (c2, Except.ok _) =>
            match writeRes with
            | some e => (c2, RpcStatus.writeFail e)
            | none => (c2, RpcStatus.awaitingResp id)

/-- Metadata is an instance of the shared exchange (its decoder,
proto.ReadMetadataResp, only acts on a received payload). -/
def Metadata (c : Connection) (writeRes : Option Err) :
    Connection × RpcStatus :=
  exchangeStep c writeRes

/-- Fetch is an instance of the shared exchange. -/
def Fetch (c : Connection) (writeRes : Option Err) :
    Connection × RpcStatus :=
  exchangeStep c writeRes

/-- Offset is an instance of the shared exchange; the req.ReplicaID := -1
fixup only rewrites the request bytes before the write. -/
def Offset (c : Connection) (writeRes : Option Err) :
    Connection × RpcStatus :=
  exchangeStep c writeRes

/-- ConsumerMetadata is an instance of the shared exchange. -/
def ConsumerMetadata (c : Connection) (writeRes : Option Err) :
    Connection × RpcStatus :=
  exchangeStep c writeRes

/-- OffsetCommit is an instance of the shared exchange. -/
def OffsetCommit (c : Connection) (writeRes : Option Err) :
    Connection × RpcStatus :=
  exchangeStep c writeRes

/-- OffsetFetch is an instance of the shared exchange. -/
def OffsetFetch (c : Connection) (writeRes : Option Err) :
    Connection × RpcStatus :=
  exchangeStep c writeRes

end Kafka

namespace Kafka

theorem tokenAt_range (n : Nat) : 1 ≤ tokenAt n ∧ tokenAt n ≤ maxInt32 - 1 := by
  induction n with
  | zero => simp [tokenAt, maxInt32]
  | succ n ih =>
      have h := ih
      simp only [tokenAt, nextIDStep, maxInt32] at h ⊢
      split <;> omega

theorem tblLookup_erase_self (tbl : Table) (t : Int) :
    tblLookup (tblErase tbl t) t = none := by
  induction tbl with
  | nil => rfl
  | cons p rest ih =>
      obtain ⟨k, v⟩ := p
      simp only [tblErase]
      split
      · exact ih
      · simp only [tblLookup]
        rw [if_neg (by assumption)]
        exact ih

theorem tblLookup_erase_ne (tbl : Table) (u t : Int) (h : u ≠ t) :
    tblLookup (tblErase tbl u) t = tblLookup tbl t := by
  induction tbl with
  | nil => rfl
  | cons p rest ih =>
      obtain ⟨k, v⟩ := p
      simp only [tblErase, tblLookup]
      split
      · have hk : k = u := by assumption
        rw [ih, if_neg (by rw [hk]; exact h)]
      · simp only [tblLookup]
        split
        · rfl
        · exact ih

theorem tblErase_of_lookup_none (tbl : Table) (t : Int)
    (h : tblLookup tbl t = none) : tblErase tbl t = tbl := by
  induction tbl with
  | nil => rfl
  | cons p rest ih =>
      obtain ⟨k, v⟩ := p
      simp only [tblLookup] at h
      by_cases hk : k = t
      · rw [if_pos hk] at h
        exact absurd h (by simp)
      · rw [if_neg hk] at h
        simp only [tblErase, if_neg hk]
        rw [ih h]

theorem readRespLoop_lookup_none (fs : List (Int × Bytes)) (c : Connection)
    (t : Int) (r : Option Err) (h : tblLookup c.respc t = none) :
    tblLookup
      (readRespLoop c (fs.map fun p => ReadEvent.frame p.1 p.2) r).1.respc
      t = none := by
  induction fs generalizing c with
  | nil => exact h
  | cons f fs ih =>
      obtain ⟨u, d⟩ := f
      simp only [List.map, readRespLoop]
      apply ih
      simp only [deliver]
      by_cases hu : u = t
      · subst hu
        cases hl : tblLookup c.respc u <;>
          simp [hl, tblLookup_erase_self]
      · cases hl : tblLookup c.respc u <;>
          simp [hl, tblLookup_erase_ne _ _ _ hu, h]

theorem routedFor_cons_routed_eq (t : Int) (ch : ChanState)
    (outs : List Outcome) :
    routedFor (Outcome.routed t ch :: outs) t = ch :: routedFor outs t := by
  simp [routedFor]

theorem routedFor_cons_routed_ne (i t : Int) (ch : ChanState)
    (outs : List Outcome) (h : i ≠ t) :
    routedFor (Outcome.routed i ch :: outs) t = routedFor outs t := by
  simp [routedFor, h]

theorem routedFor_cons_orphan (i t : Int) (outs : List Outcome) :
    routedFor (Outcome.orphan i :: outs) t = routedFor outs t := by
  simp [routedFor]

theorem routedFor_nil_of_not_mem (fs : List (Int × Bytes)) (c : Connection)
    (t : Int) (r : Option Err) (h : t ∉ fs.map Prod.fst) :
    routedFor
      (readRespLoop c (fs.map fun p => ReadEvent.frame p.1 p.2) r).2 t
      = [] := by
  induction fs generalizing c with
  | nil => rfl
  | cons f fs ih =>
      obtain ⟨u, d⟩ := f
      simp only [List.map_cons, List.mem_cons, not_or] at h
      obtain ⟨hne, hrest⟩ := h
      have hune : u ≠ t := fun hh => hne hh.symm
      simp only [List.map_cons, readRespLoop]
      cases hl : tblLookup c.respc u <;> simp only [deliver, hl]
      · rw [routedFor_cons_orphan]
        exact ih _ hrest
      · rw [routedFor_cons_routed_ne _ _ _ _ hune]
        exact ih _ hrest

theorem readRespLoop_routes_exactly (fs : List (Int × Bytes))
    (c : Connection) (t : Int) (b : Bytes) (ch : ChanState) (r : Option Err)
    (hreg : tblLookup c.respc t = some ch)
    (hmem : (t, b) ∈ fs)
    (honce : (fs.map Prod.fst).count t = 1) :
    routedFor
        (readRespLoop c (fs.map fun p => ReadEvent.frame p.1 p.2) r).2 t
      = [ChanState.delivered b] ∧
    tblLookup
      (readRespLoop c (fs.map fun p => ReadEvent.frame p.1 p.2) r).1.respc
      t = none := by
  induction fs generalizing c with
  | nil => cases hmem
  | cons f fs ih =>
      obtain ⟨u, d⟩ := f
      by_cases hu : u = t
      · subst hu
        have hcount : (fs.map Prod.fst).count u = 0 := by
          simp only [List.map_cons, List.count_cons_self] at honce
          omega
        have hnot : u ∉ fs.map Prod.fst := List.count_eq_zero.mp hcount
        have hbd : b = d := by
          rcases List.mem_cons.mp hmem with heq | hm
          · exact ((Prod.mk.injEq _ _ _ _).mp heq).2
          · exact absurd (List.mem_map.mpr ⟨(u, b), hm, rfl⟩) hnot
        subst hbd
        simp only [List.map_cons, readRespLoop, deliver, hreg]
        constructor
        · rw [routedFor_cons_routed_eq]
          rw [routedFor_nil_of_not_mem fs _ _ _ hnot]
        · exact readRespLoop_lookup_none fs _ _ _
            (tblLookup_erase_self c.respc u)
      · have hmem2 : (t, b) ∈ fs := by
          rcases List.mem_cons.mp hmem with heq | hm
          · exact absurd ((Prod.mk.injEq _ _ _ _).mp heq).1.symm hu
          · exact hm
        have honce2 : (fs.map Prod.fst).count t = 1 := by
          rw [List.map_cons, List.count_cons_of_ne (Ne.symm hu)] at honce
          exact honce
        simp only [List.map_cons, readRespLoop]
        cases hl : tblLookup c.respc u <;> simp only [deliver, hl]
        · rw [routedFor_cons_orphan]
          exact ih _ (by rw [tblLookup_erase_ne _ _ _ hu]; exact hreg)
            hmem2 honce2
        · rw [routedFor_cons_routed_ne _ _ _ _ hu]
          exact ih _ (by rw [tblLookup_erase_ne _ _ _ hu]; exact hreg)
            hmem2 honce2

theorem readRespLoop_fail (fs : List (Int × Bytes)) (c : Connection)
    (e : Err) (rest : List ReadEvent) (r : Option Err)
    (h : c.stopErr = none) :
    (readRespLoop c
        (fs.map (fun p => ReadEvent.frame p.1 p.2) ++
          ReadEvent.fail e :: rest) r).1.stopErr = some e ∧
    (∀ p ∈ (readRespLoop c
        (fs.map (fun p => ReadEvent.frame p.1 p.2) ++
          ReadEvent.fail e :: rest) r).1.respc,
      p.2 = ChanState.closedEmpty) ∧
    readRespLoop c
        (fs.map (fun p => ReadEvent.frame p.1 p.2) ++
          ReadEvent.fail e :: rest) r =
      readRespLoop c
        (fs.map (fun p => ReadEvent.frame p.1 p.2) ++ [ReadEvent.fail e])
        r := by
  induction fs generalizing c with
  | nil =>
      have hc : closeConnection c e r =
          (Connection.mk c.respc (some e) c.nextId true true, r) := by
        simp [closeConnection, h]
      refine ⟨?_, ?_, ?_⟩
      · simp only [List.map_nil, List.nil_append, readRespLoop, hc]
      · intro p hp
        simp only [List.map_nil, List.nil_append, readRespLoop, hc] at hp
        rcases List.mem_map.mp hp with ⟨q, _, hq⟩
        rw [← hq]
      · rfl
  | cons f fs ih =>
      obtain ⟨u, d⟩ := f
      have h2 : ({ c with respc := (deliver c.respc u d).1 } :
          Connection).stopErr = none := h
      obtain ⟨ihA, ihB, ihC⟩ := ih _ h2
      simp only [List.map_cons, List.cons_append, readRespLoop]
      exact ⟨ihA, ihB,
        congrArg (fun res => (res.1, (deliver c.respc u d).2 :: res.2)) ihC⟩

/-- C1: for every delivered frame, deliver removes the pending entry for
the frame's correlation ID and routes the payload into exactly that
entry's channel before closing it; over a whole run of the reader, a
caller registered for a token receives exactly the payload of the frame
carrying its token, whatever the arrival order, and a second delivery to
the same channel is impossible because the entry is gone. -/
theorem c1_exactly_once_routing (c : Connection) (fs : List (Int × Bytes))
    (t : Int) (b : Bytes) (ch : ChanState) (r : Option Err)
    (hreg : tblLookup c.respc t = some ch)
    (hmem : (t, b) ∈ fs)
    (honce : (fs.map Prod.fst).count t = 1) :
    routedFor
        (readRespLoop c (fs.map fun p => ReadEvent.frame p.1 p.2) r).2 t
      = [ChanState.delivered b] ∧
    awaitChan
        (readRespLoop c (fs.map fun p => ReadEvent.frame p.1 p.2) r).1.stopErr
        (ChanState.delivered b) = WaiterView.payload b ∧
    tblLookup
        (readRespLoop c (fs.map fun p => ReadEvent.frame p.1 p.2) r).1.respc
        t = none ∧
    deliver c.respc t b =
      (tblErase c.respc t, Outcome.routed t (ChanState.delivered b)) ∧
    (∀ b2, (deliver (deliver c.respc t b).1 t b2).2 = Outcome.orphan t) := by
  obtain ⟨h1, h2⟩ := readRespLoop_routes_exactly fs c t b ch r hreg hmem honce
  refine ⟨h1, rfl, h2, ?_, ?_⟩
  · simp [deliver, hreg]
  · intro b2
    simp [deliver, hreg, tblLookup_erase_self]

/-- Witness for C1 at a concrete two-waiter table with responses arriving
in the opposite order of registration. -/
theorem c1_witness :
    routedFor
        (readRespLoop
          { respc := [(1, ChanState.waiting), (2, ChanState.waiting)],
            stopErr := none, nextId := 3, srcClosed := false,
            rwClosed := false }
          (([((2 : Int), ([5] : Bytes)), (1, [7])]).map
            fun p => ReadEvent.frame p.1 p.2)
          none).2 1
      = [ChanState.delivered [7]] :=
  (c1_exactly_once_routing _ _ 1 [7] ChanState.waiting none (by decide)
    (by decide) (by decide)).1

/-- C2: when proto.ReadResp fails, the reader records that error as the
terminal reason via the shutdown path and exits its loop permanently
(later stream events are never consumed); on exit every still-pending
channel gets closed, so every blocked caller unblocks and observes the
recorded terminal reason instead of hanging. -/
theorem c2_shutdown_unblocks_all (c : Connection) (fs : List (Int × Bytes))
    (e : Err) (rest : List ReadEvent) (r : Option Err)
    (h : c.stopErr = none) :
    (readRespLoop c
        (fs.map (fun p => ReadEvent.frame p.1 p.2) ++
          ReadEvent.fail e :: rest) r).1.stopErr = some e ∧
    (∀ p ∈ (readRespLoop c
        (fs.map (fun p => ReadEvent.frame p.1 p.2) ++
          ReadEvent.fail e :: rest) r).1.respc,
      p.2 = ChanState.closedEmpty ∧
      awaitChan
          (readRespLoop c
            (fs.map (fun p => ReadEvent.frame p.1 p.2) ++
              ReadEvent.fail e :: rest) r).1.stopErr p.2 =
        WaiterView.failed (some e)) ∧
    readRespLoop c
        (fs.map (fun p => ReadEvent.frame p.1 p.2) ++
          ReadEvent.fail e :: rest) r =
      readRespLoop c
        (fs.map (fun p => ReadEvent.frame p.1 p.2) ++ [ReadEvent.fail e])
        r := by
  obtain ⟨hA, hB, hC⟩ := readRespLoop_fail fs c e rest r h
  refine ⟨hA, ?_, hC⟩
  intro p hp
  have hpc := hB p hp
  exact ⟨hpc, by rw [hpc, hA]; rfl⟩

/-- Witness for C2: one pending waiter, a read failure, and a stream
event after the failure that the exited reader never consumes. -/
theorem c2_witness :
    (readRespLoop
        { respc := [(1, ChanState.waiting)], stopErr := none, nextId := 2,
          srcClosed := false, rwClosed := false }
        (([] : List (Int × Bytes)).map (fun p => ReadEvent.frame p.1 p.2) ++
          ReadEvent.fail (Err.ioErr 7) :: [ReadEvent.frame 1 [3]])
        none).1.stopErr = some (Err.ioErr 7) :=
  (c2_shutdown_unblocks_all _ [] (Err.ioErr 7) [ReadEvent.frame 1 [3]] none
    rfl).1

/-- C4: the correlation-ID source starts its counter at 1, hands each
token to one caller and increments by one, wraps back to 1 after handing
out the signed 32-bit maximum minus one, and therefore only ever
produces tokens in 1 .. 2^31 - 2: never zero and never math.MaxInt32. -/
theorem c4_token_sequence :
    tokenAt 0 = 1 ∧
    (∀ n, 1 ≤ tokenAt n ∧ tokenAt n ≤ maxInt32 - 1) ∧
    (∀ n, tokenAt n ≠ 0 ∧ tokenAt n ≠ maxInt32) ∧
    (∀ n, tokenAt n < maxInt32 - 1 → tokenAt (n + 1) = tokenAt n + 1) ∧
    (∀ n, tokenAt n = maxInt32 - 1 → tokenAt (n + 1) = 1) := by
  refine ⟨rfl, tokenAt_range, ?_, ?_, ?_⟩
  · intro n
    have h := tokenAt_range n
    simp only [maxInt32] at h ⊢
    omega
  · intro n hn
    simp only [tokenAt, nextIDStep]
    rw [if_neg (by simp only [maxInt32] at hn ⊢; omega)]
  · intro n hn
    simp only [tokenAt, nextIDStep]
    rw [hn, if_pos (by simp only [maxInt32]; omega)]

/-- Witness for C4: the second token follows the first by one. -/
theorem c4_witness : tokenAt 1 = tokenAt 0 + 1 :=
  c4_token_sequence.2.2.2.1 0 (by decide)

/-- C5: respWaiter surfaces a conflict error and leaves the connection
untouched when the correlation ID is already pending; otherwise it adds
exactly one new waiting entry for the ID, returning its channel, and
leaves every other entry unchanged. -/
theorem c5_registration_conflict (c : Connection) (t : Int) :
    (∀ ch, tblLookup c.respc t = some ch →
      respWaiter c t = (c, Except.error (Err.correlationConflict t))) ∧
    (tblLookup c.respc t = none →
      (respWaiter c t).1.respc = (t, ChanState.waiting) :: c.respc ∧
      (respWaiter c t).2 = Except.ok () ∧
      (respWaiter c t).1.stopErr = c.stopErr ∧
      tblLookup (respWaiter c t).1.respc t = some ChanState.waiting ∧
      (∀ u, u ≠ t →
        tblLookup (respWaiter c t).1.respc u = tblLookup c.respc u)) := by
  constructor
  · intro ch h
    simp [respWaiter, h]
  · intro h
    have hw : respWaiter c t =
        ({ c with respc := (t, ChanState.waiting) :: c.respc },
         Except.ok ()) := by
      simp [respWaiter, h]
    refine ⟨by rw [hw], by rw [hw], by rw [hw], ?_, ?_⟩
    · rw [hw]
      simp [tblLookup]
    · intro u hu
      rw [hw]
      simp only [tblLookup]
      rw [if_neg (Ne.symm hu)]

/-- Witness for C5: registering an already-pending correlation ID 5
fails with the conflict error and changes nothing. -/
theorem c5_witness :
    respWaiter (Connection.mk [(5, ChanState.waiting)] none 6 false false) 5
      = (Connection.mk [(5, ChanState.waiting)] none 6 false false,
         Except.error (Err.correlationConflict 5)) :=
  (c5_registration_conflict
      (Connection.mk [(5, ChanState.waiting)] none 6 false false) 5).1
    ChanState.waiting (by decide)

/-- C6: a frame whose correlation ID has no pending entry is logged and
dropped: the payload is discarded, the table (and so every other
pending entry) is unchanged, and the reader loop carries on with the
next event instead of crashing. -/
theorem c6_orphan_harmless (c : Connection) (t : Int) (b : Bytes)
    (rest : List ReadEvent) (r : Option Err)
    (h : tblLookup c.respc t = none) :
    deliver c.respc t b = (c.respc, Outcome.orphan t) ∧
    readRespLoop c (ReadEvent.frame t b :: rest) r =
      ((readRespLoop c rest r).1,
       Outcome.orphan t :: (readRespLoop c rest r).2) ∧
    (∀ u, tblLookup (deliver c.respc t b).1 u = tblLookup c.respc u) := by
  have hd : deliver c.respc t b = (c.respc, Outcome.orphan t) := by
    simp [deliver, h, tblErase_of_lookup_none _ _ h]
  refine ⟨hd, ?_, ?_⟩
  · simp only [readRespLoop, hd]
  · intro u
    rw [hd]

/-- Witness for C6: a frame for the unregistered ID 1 leaves a table
holding only ID 2 unchanged and is reported as an orphan. -/
theorem c6_witness :
    deliver [((2 : Int), ChanState.waiting)] 1 [9]
      = ([((2 : Int), ChanState.waiting)], Outcome.orphan 1) :=
  (c6_orphan_harmless
      (Connection.mk [(2, ChanState.waiting)] none 3 false false)
      1 [9] [] none (by decide)).1

/-- C7: every RPC method, when the receive from c.nextID reports the
source closed, returns the recorded terminal reason as its error without
touching the connection: it neither blocks on a response channel nor
produces a successful response. -/
theorem c7_closed_rpc_fails (c : Connection) (w : Option Err) (acks : Int)
    (e : Err) (hclosed : c.srcClosed = true) (hstop : c.stopErr = some e) :
    Metadata c w = (c, RpcStatus.closedFail (some e)) ∧
    Produce c acks w = (c, RpcStatus.closedFail (some e)) ∧
    Fetch c w = (c, RpcStatus.closedFail (some e)) ∧
    Offset c w = (c, RpcStatus.closedFail (some e)) ∧
    ConsumerMetadata c w = (c, RpcStatus.closedFail (some e)) ∧
    OffsetCommit c w = (c, RpcStatus.closedFail (some e)) ∧
    OffsetFetch c w = (c, RpcStatus.closedFail (some e)) ∧
    blocks (RpcStatus.closedFail (some e)) = false := by
  have hx : exchangeStep c w = (c, RpcStatus.closedFail (some e)) := by
    simp [exchangeStep, nextID, hclosed, hstop]
  have hp : Produce c acks w = (c, RpcStatus.closedFail (some e)) := by
    simp [Produce, nextID, hclosed, hstop]
  exact ⟨hx, hp, hx, hx, hx, hx, hx, rfl⟩

/-- Witness for C7: Metadata on a connection whose source is closed with
recorded reason ErrClosed fails with exactly that reason. -/
theorem c7_witness :
    Metadata (Connection.mk [] (some Err.errClosed) 5 true true) none
      = (Connection.mk [] (some Err.errClosed) 5 true true,
         RpcStatus.closedFail (some Err.errClosed)) :=
  (c7_closed_rpc_fails (Connection.mk [] (some Err.errClosed) 5 true true)
    none 1 Err.errClosed rfl rfl).1

/-- C8: a Produce call whose RequiredAcks is RequiredAcksNone only
writes the request and returns at once with no response payload: the
pending table is untouched (no entry registered) and the call never
reaches a blocking response wait. -/
theorem c8_fire_and_forget (c : Connection) (w : Option Err)
    (hopen : c.srcClosed = false) :
    Produce c RequiredAcksNone w =
      ({ c with nextId := nextIDStep c.nextId }, RpcStatus.fireForget w) ∧
    (Produce c RequiredAcksNone w).1.respc = c.respc ∧
    blocks (Produce c RequiredAcksNone w).2 = false := by
  have h : Produce c RequiredAcksNone w =
      ({ c with nextId := nextIDStep c.nextId },
       RpcStatus.fireForget w) := by
    simp [Produce, nextID, hopen]
  exact ⟨h, by rw [h], by rw [h]; rfl⟩

/-- Witness for C8: a no-acks Produce on a fresh connection leaves the
empty pending table empty and returns without a response wait. -/
theorem c8_witness :
    (Produce (Connection.mk [] none 1 false false) RequiredAcksNone
        none).1.respc = [] :=
  (c8_fire_and_forget (Connection.mk [] none 1 false false) none rfl).2.1

/-- C9: when the stream write fails in a response-expecting RPC call,
the call returns the write error, but the waiter entry registered for
its correlation ID is left in the pending table, still marked waiting. -/
theorem c9_write_error_entry_stays (c : Connection) (e : Err)
    (hopen : c.srcClosed = false)
    (hfree : tblLookup c.respc c.nextId = none) :
    (Metadata c (some e)).2 = RpcStatus.writeFail e ∧
    (Metadata c (some e)).1.respc =
      (c.nextId, ChanState.waiting) :: c.respc ∧
    tblLookup (Metadata c (some e)).1.respc c.nextId
      = some ChanState.waiting := by
  refine ⟨?_, ?_, ?_⟩ <;>
    simp [Metadata, exchangeStep, nextID, hopen, respWaiter, hfree,
      tblLookup]

/-- Witness for C9: a Metadata call whose write fails leaves its
correlation ID 1 registered and waiting in the table. -/
theorem c9_witness :
    tblLookup
      (Metadata (Connection.mk [] none 1 false false)
        (some (Err.ioErr 2))).1.respc 1 = some ChanState.waiting :=
  (c9_write_error_entry_stays (Connection.mk [] none 1 false false)
    (Err.ioErr 2) rfl rfl).2.2

/-- A fresh connection, as built by newTCPConnection: empty pending
table, no terminal error, counter at 1, nothing closed. -/
def conn0 : Connection := Connection.mk [] none 1 false false

/-- C3 counterexample: on a fresh connection whose underlying stream
close returns nil, the first Close returns nil while the second returns
ErrClosed, so repeated closes do not return the same terminal reason
both times. -/
theorem c3_counterexample :
    ¬ ((Close conn0 none).2 = (Close (Close conn0 none).1 none).2) := by
  decide

/-- C3 amended: the first close call records the terminal reason
permanently and performs the teardown, but returns the underlying
stream close result rather than the recorded reason; every later close
call returns the recorded terminal reason with no side effects, so all
close calls from the second one onward return the same reason. -/
theorem c3_idempotent_close (c : Connection) (e e2 : Err)
    (r r2 : Option Err) (h : c.stopErr = none) :
    (closeConnection c e r).1.stopErr = some e ∧
    (closeConnection c e r).2 = r ∧
    closeConnection (closeConnection c e r).1 e2 r2 =
      ((closeConnection c e r).1, some e) := by
  simp [closeConnection, h]

/-- Witness for C3 (amended): closing a fresh connection twice records
ErrClosed once; the second close changes nothing and returns it. -/
theorem c3_witness :
    closeConnection (closeConnection conn0 Err.errClosed none).1
        (Err.ioErr 1) none
      = ((closeConnection conn0 Err.errClosed none).1,
         some Err.errClosed) :=
  (c3_idempotent_close conn0 Err.errClosed (Err.ioErr 1) none none
    rfl).2.2

/-- C10: the close call that finds no terminal reason recorded wins: it
records the reason and returns the result of closing the underlying
stream (which may be nil); a close call that finds a reason already
recorded returns that recorded reason and leaves the connection
unchanged. -/
theorem c10_winning_close_returns_stream_result (c : Connection) (e : Err)
    (r : Option Err) :
    (c.stopErr = none → (closeConnection c e r).2 = r) ∧
    (∀ p, c.stopErr = some p → closeConnection c e r = (c, some p)) := by
  constructor
  · intro h
    simp [closeConnection, h]
  · intro p h
    simp [closeConnection, h]

/-- Witness for C10: the winning close of a fresh connection returns the
nil result of the underlying stream close. -/
theorem c10_witness : (closeConnection conn0 Err.errClosed none).2 = none :=
  (c10_winning_close_returns_stream_result conn0 Err.errClosed none).1 rfl

end Kafka
